import Mathlib

/-!
Verification development for the statistical thresholding and
multiple-comparisons-correction engine of a neuroimaging toolkit
(`nilearn.glm` thresholding together with `nilearn._utils.param_validation`).

The repository snapshot at hand contains `nilearn/_utils/param_validation.py`
(embedded below from that source) and the test module
`nilearn/glm/tests/test_thresholding.py`; the implementation module
`nilearn/glm/thresholding.py` itself is absent, so the thresholding engine
(`hommel_value`, `fdr_threshold`, `threshold_stats_img`,
`cluster_level_inference`, cluster filtering) is modelled from the spec,
as marked in each doc comment.

Embedding of real-valued statistics: every decision taken by the engine is
an order comparison between z-values, and every z-value handled by the
engine is produced from, or converted to, a tail probability of the
standard normal distribution (survival function `sf`, its inverse `isf`).
Since the standard normal CDF `Phi` is a strictly increasing bijection from
the reals onto `(0, 1)`, we represent a z-value `z` by the rational
standing for `Phi z`.  Under this order isomorphism:

* `isf p` becomes `1 - p`, `sf v` becomes `1 - v`;
* `z <= z'` becomes `v <= v'`, negation `z -> -z` becomes `v -> 1 - v`;
* `|z|` becomes `max v (1 - v)`, the number `0` becomes `1/2`;
* `+infinity` (the degenerate FDR threshold) is a distinguished extra
  point above every value (`EThresh.inf`).

All fixture values of the test suite are of the form `isf q` with `q`
rational, except for the literal z-values `5.0` (block height), `3` and `6`
(candidate cluster-forming thresholds); for those three, fixed rationals
standing for `sf 5`, `sf 3`, `sf 6` are used (`sf5q`, `sf3q`, `sf6q`
below); each sits in the same position, in the rational order, as the real
number it stands for relative to every other probability appearing in the
computation, so every comparison made by the engine has the same outcome
as over the reals.
-/

set_option autoImplicit false
set_option maxRecDepth 40000

unseal Rat.add Rat.mul Rat.sub Rat.inv

namespace Nilearn

/-- Image of the number `0` under the CDF embedding: `Phi 0 = 1/2`.
Zeroed-out voxels of a thresholded statistic map carry this value. -/
def half : ℚ := 1 / 2

/-- Inverse survival function of the standard normal in the CDF embedding:
`Phi (isf p) = 1 - p`. -/
def phi_isf (p : ℚ) : ℚ := 1 - p

/-- Survival function of the standard normal in the CDF embedding:
`sf z = 1 - Phi z`. -/
def phi_sf (v : ℚ) : ℚ := 1 - v

/-- Absolute value in the CDF embedding: `Phi |z| = max (Phi z) (1 - Phi z)`. -/
def phiAbs (v : ℚ) : ℚ := max v (1 - v)

/-- Scalar threshold: either a finite value (in the CDF embedding) or the
degenerate `+infinity` returned by the FDR procedure when no voxel
survives. -/
inductive EThresh where
  | fin (t : ℚ)
  | inf
deriving DecidableEq

/-- Height-control methods of the threshold resolver; the Python `None`
method is represented by `Option.none` at use sites. -/
inductive HC where
  | fpr
  | fdr
  | bonferroni
deriving DecidableEq

/-- Insert a rational into an ascending list, keeping it ascending. -/
def insertAsc (x : ℚ) : List ℚ → List ℚ
  | [] => [x]
  | y :: ys => if x ≤ y then x :: y :: ys else y :: insertAsc x ys

/-- Sort a list of rationals in ascending order (insertion sort); stands
for the ascending `np.sort` applied to p-values. -/
def sortAsc (l : List ℚ) : List ℚ := l.foldr insertAsc []

/-- Modelled from the spec (the HommelEngine of the absent
`nilearn/glm/thresholding.py`): decidable check that `h` hypotheses can
simultaneously be true nulls.  With `s` the ascending p-values and
`m = s.length`, requires `p_(m - h + i) > alpha * i / h` for every
`i = 1..h` (1-indexed order statistics). -/
def hommelOK (s : List ℚ) (alpha : ℚ) (h : ℕ) : Bool :=
  (List.range h).all fun i =>
    decide (alpha * ((i + 1 : ℕ) : ℚ) / ((h : ℕ) : ℚ) < s.getD (s.length - h + i) 0)

/-- Modelled from the spec: the Hommel value, the largest `h ≤ m` such
that `h` of the `m` hypotheses could simultaneously be true nulls at
family-wise level `alpha` under the closed-testing shortcut.  The source
function receives z-scores and converts them to p-values through the
normal survival function; in the CDF embedding that conversion is exact,
so the model takes the (unsorted) p-values directly and sorts them
ascending. -/
def hommel_value (pvals : List ℚ) (alpha : ℚ) : ℕ :=
  Nat.findGreatest (fun h => hommelOK (sortAsc pvals) alpha h = true) pvals.length

/-- Modelled from the spec (the FDR branch of the ThresholdResolver of the
absent `nilearn/glm/thresholding.py`): Benjamini–Hochberg procedure.
Rejects `alpha ≤ 0` or `alpha > 1`; sorts the p-values ascending, finds
the largest `k` (1-indexed) with `p_(k) ≤ (k/m) * alpha` and returns the
score whose p-value is `p_(k)` (`isf p_(k)`, i.e. `1 - p_(k)` in the CDF
embedding), or `+infinity` when no such `k` exists.  As with
`hommel_value`, the source takes z-scores and converts via `sf`; the model
takes the p-values directly. -/
def fdr_threshold (pvals : List ℚ) (alpha : ℚ) : Except Unit EThresh :=
  if alpha ≤ 0 ∨ 1 < alpha then .error () else
  let s := sortAsc pvals
  let m := s.length
  let ks := (List.range m).filter fun k =>
    decide (s.getD k 0 ≤ ((k + 1 : ℕ) : ℚ) / ((m : ℕ) : ℚ) * alpha)
  match ks.getLast? with
  | some k => .ok (.fin (1 - s.getD k 0))
  | none => .ok .inf

/-- Supra-threshold test in the CDF embedding.  Two-sided: `|z| ≥ t`,
i.e. `v ≥ c ∨ v ≤ 1 - c`; one-sided: `z ≥ t`.  Nothing exceeds the
degenerate `+infinity` threshold. -/
def supra (v : ℚ) (t : EThresh) (two_sided : Bool) : Bool :=
  match t with
  | .inf => false
  | .fin c => if two_sided then decide (c ≤ v ∨ v ≤ 1 - c) else decide (c ≤ v)

/-- One step of component growth: voxels of `rest` adjacent to `comp` are
moved into `comp`, until no further voxel is adjacent; `fuel` bounds the
number of rounds (the initial `rest.length` always suffices). -/
def growComponent (adj : ℕ → ℕ → Bool) : ℕ → List ℕ → List ℕ → List ℕ × List ℕ
  | 0, comp, rest => (comp, rest)
  | fuel + 1, comp, rest =>
    let p := rest.partition fun j => comp.any fun i => adj i j
    if p.1 = [] then (comp, rest)
    else growComponent adj fuel (comp ++ p.1) p.2

/-- Split a list of voxel indices into connected components with respect to
the adjacency relation `adj`; `fuel` bounds the number of components. -/
def componentsAux (adj : ℕ → ℕ → Bool) : ℕ → List ℕ → List (List ℕ)
  | 0, _ => []
  | _ + 1, [] => []
  | fuel + 1, x :: rest =>
    let cr := growComponent adj rest.length [x] rest
    cr.1 :: componentsAux adj fuel cr.2

/-- Connected components of a set of voxel indices (collaborator interface:
labeled connected components from a boolean array with a connectivity
parameter). -/
def components (adj : ℕ → ℕ → Bool) (l : List ℕ) : List (List ℕ) :=
  componentsAux adj l.length l

/-- Modelled from the spec (the ClusterFilter of the absent
`nilearn/glm/thresholding.py`): label connected components independently
for the positive-valued region and, if two-sided, the negative-valued
region; zero out (set to `half`, the embedded `0`) every component whose
voxel count is `< min_size`; `min_size = 0` is a no-op. -/
def cluster_filter (adj : ℕ → ℕ → Bool) (thmap : List ℚ) (min_size : ℕ)
    (two_sided : Bool) : List ℚ :=
  if min_size = 0 then thmap else
  let posIdx := (thmap.enum.filter fun p => decide (half < p.2)).map Prod.fst
  let negIdx := (thmap.enum.filter fun p => decide (p.2 < half)).map Prod.fst
  let keepPos := ((components adj posIdx).filter fun c => min_size ≤ c.length).flatten
  let keepNeg :=
    if two_sided then
      ((components adj negIdx).filter fun c => min_size ≤ c.length).flatten
    else negIdx
  thmap.enum.map fun p =>
    if half < p.2 then (if keepPos.contains p.1 then p.2 else half)
    else if p.2 < half then (if keepNeg.contains p.1 then p.2 else half)
    else p.2

/-- Modelled from the spec (the ThresholdResolver `threshold_stats_img` of
the absent `nilearn/glm/thresholding.py`).  Arguments follow the source
signature (`stat_img, mask_img, alpha, threshold, height_control,
cluster_threshold, two_sided`), with the spatial connectivity structure
`adj` passed explicitly, statistic maps as flat voxel-value lists in the
CDF embedding, and masks as boolean lists.  Branches, in spec order:
two-sided halves `alpha`; `fpr` replaces the scalar threshold with
`isf alpha'`; a missing stat map returns the bare scalar for `fpr`/`none`
and is an `InvalidArgument` for `fdr`/`bonferroni`; `alpha` must lie in
`(0,1)` when a height-control method uses it; `fdr`/`bonferroni` compute
the cutoff from the (absolute, if two-sided) masked voxel values; the
cutoff is applied to the map (failures zeroed to the embedded `0`,
out-of-mask voxels zeroed) and the result is cluster-filtered. -/
def threshold_stats_img (adj : ℕ → ℕ → Bool) (stat : Option (List ℚ))
    (mask : Option (List Bool)) (alpha : ℚ) (threshold : ℚ)
    (height_control : Option HC) (cluster_threshold : ℕ) (two_sided : Bool) :
    Except Unit (Option (List ℚ) × EThresh) :=
  let alpha' := if two_sided then alpha / 2 else alpha
  match stat, height_control with
  | none, none => .ok (none, .fin threshold)
  | none, some .fpr =>
    if alpha ≤ 0 ∨ 1 ≤ alpha then .error () else .ok (none, .fin (phi_isf alpha'))
  | none, some .fdr => .error ()
  | none, some .bonferroni => .error ()
  | some vals, hc =>
    if hc.isSome ∧ (alpha ≤ 0 ∨ 1 ≤ alpha) then .error () else
    let maskL := mask.getD (List.replicate vals.length true)
    let pairs := vals.zip maskL
    let stats := (pairs.filter Prod.snd).map Prod.fst
    let statsAbs := if two_sided then stats.map phiAbs else stats
    let thrE : Except Unit EThresh :=
      match hc with
      | some .fpr => .ok (.fin (phi_isf alpha'))
      | some .fdr => fdr_threshold (statsAbs.map phi_sf) alpha'
      | some .bonferroni => .ok (.fin (phi_isf (alpha' / (stats.length : ℚ))))
      | none => .ok (.fin threshold)
    match thrE with
    | .error e => .error e
    | .ok t =>
      let thmap := pairs.map fun p => if p.2 && supra p.1 t two_sided then p.1 else half
      .ok (some (cluster_filter adj thmap cluster_threshold two_sided), t)

/-- Modelled from the spec (the ClusterLevelInference
`cluster_level_inference` of the absent `nilearn/glm/thresholding.py`):
`alpha` must lie in `(0,1)`; for each candidate threshold (iteration order
preserved) the map is binarized two-sidedly, split into connected
clusters, and every voxel of a cluster receives the true-discovery
guarantee `1 - h / |cluster|` (vacuous `0` if `h > |cluster|`) computed
from the Hommel value `h` of that cluster's p-values; per voxel the
maximum guarantee across candidates is kept, zero where no candidate was
survived.  Thresholds are finite scalars in the CDF embedding. -/
def cluster_level_inference (adj : ℕ → ℕ → Bool) (vals : List ℚ)
    (mask : Option (List Bool)) (thresholds : List ℚ) (alpha : ℚ) :
    Except Unit (List ℚ) :=
  if alpha ≤ 0 ∨ 1 ≤ alpha then .error () else
  let maskL := mask.getD (List.replicate vals.length true)
  let pairs := vals.zip maskL
  let base : List ℚ := vals.map fun _ => 0
  .ok <| thresholds.foldl (fun acc t =>
    let supraIdx := (pairs.enum.filter fun p =>
      p.2.2 && supra p.2.1 (.fin t) true).map Prod.fst
    (components adj supraIdx).foldl (fun acc2 c =>
      let cpvals := c.map fun i => phi_sf (vals.getD i 0)
      let h := hommel_value cpvals alpha
      let tdp : ℚ := if h ≤ c.length then 1 - (h : ℚ) / (c.length : ℚ) else 0
      acc2.enum.map fun p => if c.contains p.1 then max p.2 tdp else p.2) acc) base

/-- Statistic map component of a threshold-resolver result. -/
def resultMap (r : Except Unit (Option (List ℚ) × EThresh)) : Option (List ℚ) :=
  match r with
  | .ok (m, _) => m
  | .error _ => none

/-- Guarantee map of a cluster-level inference result, when no error. -/
def clusterMap (r : Except Unit (List ℚ)) : Option (List ℚ) :=
  match r with
  | .ok m => some m
  | .error _ => none

/-- Number of voxels of a thresholded statistic map with a positive value
(`> 0` over the reals is `> 1/2` in the CDF embedding). -/
def countSupra (l : List ℚ) : ℕ := l.countP fun v => decide (half < v)

/-- Number of voxels of a guarantee map with a positive guarantee. -/
def countPos (l : List ℚ) : ℕ := l.countP fun v => decide (0 < v)

/-- Face adjacency (6-connectivity) of flat indices of a C-ordered 3-d
array with trailing axis sizes `ny` and `nz`: exactly one coordinate
differs, by exactly one. -/
def faceAdj (ny nz : ℕ) (i j : ℕ) : Bool :=
  let xi := i / (ny * nz); let yi := (i / nz) % ny; let zi := i % nz
  let xj := j / (ny * nz); let yj := (j / nz) % ny; let zj := j % nz
  (xi == xj && yi == yj && (zi + 1 == zj || zj + 1 == zi)) ||
  (xi == xj && zi == zj && (yi + 1 == yj || yj + 1 == yi)) ||
  (yi == yj && zi == zj && (xi + 1 == xj || xj + 1 == xi))

/-- Adjacency of the `9 × 10 × 11` test fixture array. -/
def adj990 (i j : ℕ) : Bool := faceAdj 10 11 i j

/-- Entry `i` of `np.linspace(1/990, 1 - 1/990, 990)`:
`1/990 + i * (988/990) / 989`. -/
def qLin (i : ℕ) : ℚ := ((989 + 988 * i : ℕ) : ℚ) / 979110

/-- Rational stand-in for `sf 3 = 0.0013498980...`; it lies strictly
between `qLin 0 = 1/990` and `qLin 1`, and strictly between `1/2000` and
`1/990`... more precisely the only comparisons made against it in the
fixtures are with `qLin i` values and direct cutoffs, and it sits in the
same rational order position as the real `sf 3`. -/
def sf3q : ℚ := 13499 / 10000000

/-- Rational stand-in for `sf 5 = 2.8665157e-7`; below `1/2000` and
`sf3q`, above `sf6q`, as over the reals. -/
def sf5q : ℚ := 2866516 / 10000000000000

/-- Rational stand-in for `sf 6 = 9.8659e-10`; below `sf5q` and every
`qLin i`, as over the reals. -/
def sf6q : ℚ := 98659 / 100000000000000

/-- Membership of a flat index of the `9 × 10 × 11` array in the block
`[2:4, 5:7, 6:8]` set to the z-value `5.0` by the fixture. -/
def inBlock (i : ℕ) : Bool :=
  let x := i / 110; let y := (i / 11) % 10; let z := i % 11
  2 ≤ x && x ≤ 3 && 5 ≤ y && y ≤ 6 && 6 ≤ z && z ≤ 7

/-- The `9 × 10 × 11` fixture statistic map of the test suite, flattened in
C order and written in the CDF embedding:
`norm.isf(np.linspace(1/990, 1 - 1/990, 990)).reshape(9, 10, 11)` with the
block `[2:4, 5:7, 6:8]` then set to `5.0`. -/
def fixture990 : List ℚ :=
  (List.range 990).map fun i => if inBlock i then 1 - sf5q else 1 - qLin i

/-- The all-ones mask of the fixture (`np.ones(shape)`). -/
def mask990 : List Bool := List.replicate 990 true

/-!
Embedding of `nilearn/_utils/param_validation.py` (present in the source
tree).  Warnings are modelled as an explicit output component instead of a
global warning registry; `sklearn.SelectPercentile` is modelled as a
record of the chosen score function and the integer percentile it is
constructed with.
-/

/-- A mask image as consumed by `_get_mask_volume`: the top-left `3 × 3`
block of its affine (the only part the source reads, via
`affine[:3, :3]`) and its flattened boolean data. -/
structure NiftiImage where
  affine3 : Matrix (Fin 3) (Fin 3) ℚ
  data : List Bool

/-- Volume of a standard (MNI152) brain mask in mm^3 (source constant). -/
def MNI152_BRAIN_VOLUME : ℚ := 1827243

/-- From the source: volume of a brain mask in mm^3,
`1.0 * np.abs(np.linalg.det(affine[:3, :3]))` times the number of `true`
voxels of the mask data. -/
def _get_mask_volume (mask_img : NiftiImage) : ℚ :=
  |mask_img.affine3.det| * ((mask_img.data.countP id : ℕ) : ℚ)

/-- The two advisory warnings `_adjust_screening_percentile` can emit. -/
inductive ScreenWarning where
  | mask_bigger_than_standard_brain
  | mask_smaller_than_half_percent_of_brain
deriving DecidableEq

/-- From the source: adjust the screening percentile according to the
MNI152 template.  Warns (non-fatally, second component) if the mask
volume exceeds `1.1` times, or is below `0.005` times, the standard brain
volume; when the percentile is `< 100` it is rescaled by
`MNI152_BRAIN_VOLUME / mask_volume` and capped at `100`; a percentile of
`100` is returned unchanged. -/
def _adjust_screening_percentile (screening_percentile : ℚ)
    (mask_img : NiftiImage) : ℚ × Option ScreenWarning :=
  let mask_volume := _get_mask_volume mask_img
  let warning : Option ScreenWarning :=
    if mask_volume > 11 / 10 * MNI152_BRAIN_VOLUME then
      some .mask_bigger_than_standard_brain
    else if mask_volume < 5 / 1000 * MNI152_BRAIN_VOLUME then
      some .mask_smaller_than_half_percent_of_brain
    else none
  let adjusted :=
    if screening_percentile < 100 then
      min (screening_percentile * (MNI152_BRAIN_VOLUME / mask_volume)) 100
    else screening_percentile
  (adjusted, warning)

/-- The univariate score functions `check_feature_screening` can select. -/
inductive FTest where
  | f_classif
  | f_regression
deriving DecidableEq

/-- Model of a constructed `sklearn.feature_selection.SelectPercentile`
object: the score function and the integer percentile passed to it. -/
structure SelectPercentile where
  score_func : FTest
  percentile : ℤ
deriving DecidableEq

/-- Python `int()` on a rational: truncation toward zero. -/
def int_trunc (q : ℚ) : ℤ := Int.sign q.num * ((q.num.natAbs / q.den : ℕ) : ℤ)

/-- From the source: check the feature screening method.  `None` or `100`
yields no selector; a percentile outside `[0, 100]` is a `ValueError`;
otherwise the percentile is volume-adjusted and a `SelectPercentile` is
built from `int(...)` of the adjusted value, with the score function
chosen by `is_classification`. -/
def check_feature_screening (screening_percentile : Option ℚ)
    (mask_img : NiftiImage) (is_classification : Bool) :
    Except Unit (Option SelectPercentile) :=
  let f_test := if is_classification then FTest.f_classif else FTest.f_regression
  match screening_percentile with
  | none => .ok none
  | some sp =>
    if sp = 100 then .ok none
    else if ¬(0 ≤ sp ∧ sp ≤ 100) then .error ()
    else .ok (some
      { score_func := f_test
        percentile := int_trunc (_adjust_screening_percentile sp mask_img).1 })

/-- The p-values of the Hommel reference example (Meijer et al. 2017),
whose `isf` images are the scores the test feeds to the engine. -/
def pvals7 : List ℚ := [1/100000000, 1/100, 2/25, 1/10, 1/2, 7/10, 9/10]

/-- The 100 p-values of the FDR test: `np.linspace(0.5/100, 1 - 0.5/100,
100)` with the first ten entries set to `0.0005`; their `isf` images are
the scores fed to `fdr_threshold` (the test's shuffle is irrelevant, the
procedure sorts). -/
def pfdr100 : List ℚ :=
  (List.range 100).map fun i => if i < 10 then 1/2000 else 1/200 + (i : ℚ)/100

/-- A concrete mask image (identity voxel-to-world rotation block, four
`true` voxels) used to instantiate hypotheses of theorems below. -/
def maskSmall : NiftiImage := { affine3 := 1, data := List.replicate 4 true }

/-- C1: `hommel_value` on the scores obtained by applying the normal
inverse survival function to the p-values
`[1e-8, 0.01, 0.08, 0.1, 0.5, 0.7, 0.9]` returns an integer in `[0, m]`,
and equals 7 at `alpha = 1e-9`, 6 at `1e-7`, 6 at `0.059`, 5 at `0.061`,
5 at `0.249`, 4 at `0.251`, 4 at `0.399`, 3 at `0.401`, 3 at `0.899` and
0 at `0.901`. -/
theorem C1_hommel_value_fixture :
    (∀ (pvals : List ℚ) (alpha : ℚ), hommel_value pvals alpha ≤ pvals.length) ∧
    hommel_value pvals7 (1/1000000000) = 7 ∧
    hommel_value pvals7 (1/10000000) = 6 ∧
    hommel_value pvals7 (59/1000) = 6 ∧
    hommel_value pvals7 (61/1000) = 5 ∧
    hommel_value pvals7 (249/1000) = 5 ∧
    hommel_value pvals7 (251/1000) = 4 ∧
    hommel_value pvals7 (399/1000) = 4 ∧
    hommel_value pvals7 (401/1000) = 3 ∧
    hommel_value pvals7 (899/1000) = 3 ∧
    hommel_value pvals7 (901/1000) = 0 := by
  refine ⟨fun pvals alpha => ?_, ?_, ?_, ?_, ?_, ?_, ?_, ?_, ?_, ?_, ?_⟩
  · exact Nat.findGreatest_le pvals.length
  all_goals decide

/-- C2: the FDR threshold computation implements Benjamini–Hochberg: on
the 100 scores of which exactly ten carry the artificially low p-value
`0.0005` (the rest spread evenly on `(0,1)`), `fdr_threshold` returns the
score `isf 0.0005` at `alpha = 0.1`, and the degenerate (non-error)
`+infinity` at `alpha = 0.001`. -/
theorem C2_fdr_threshold_fixture :
    fdr_threshold pfdr100 (1/10) = .ok (.fin (phi_isf (1/2000))) ∧
    fdr_threshold pfdr100 (1/1000) = .ok .inf := by
  exact ⟨rfl, rfl⟩

/-- C4: the FDR threshold computation rejects every out-of-range `alpha`
(`alpha ≤ 0` or `alpha > 1`) with `InvalidArgument` instead of returning a
threshold. -/
theorem C4_fdr_rejects_bad_alpha (pvals : List ℚ) (alpha : ℚ)
    (h : alpha ≤ 0 ∨ 1 < alpha) : fdr_threshold pvals alpha = .error () := by
  unfold fdr_threshold
  rw [if_pos h]

/-- Witness for C4 at the two boundary inputs the spec singles out:
`alpha = -0.1` and `alpha = 1.5`. -/
theorem C4_fdr_rejects_bad_alpha_witness :
    fdr_threshold pfdr100 (-1/10) = .error () ∧
    fdr_threshold pfdr100 (3/2) = .error () :=
  ⟨C4_fdr_rejects_bad_alpha pfdr100 (-1/10) (Or.inl (by decide)),
   C4_fdr_rejects_bad_alpha pfdr100 (3/2) (Or.inr (by decide))⟩

/-- C5: for every `alpha` and `cluster_threshold` (and connectivity,
scalar threshold and sidedness), `threshold_stats_img` with height
control `fdr` or `bonferroni` and a missing stat map raises
`InvalidArgument`: these methods need the per-voxel values. -/
theorem C5_needs_stat_map (adj : ℕ → ℕ → Bool) (alpha threshold : ℚ)
    (cluster_threshold : ℕ) (two_sided : Bool) :
    threshold_stats_img adj none none alpha threshold (some .fdr)
      cluster_threshold two_sided = .error () ∧
    threshold_stats_img adj none none alpha threshold (some .bonferroni)
      cluster_threshold two_sided = .error () :=
  ⟨rfl, rfl⟩

/-- C6: round-trip identity of the pure threshold-value computation: for
every scalar `T` (and every `alpha`, `cluster_threshold`, sidedness and
connectivity), `threshold_stats_img` with no stat map, no mask, explicit
threshold `T` and no height control returns exactly the pair
`(none, T)`, producing no map. -/
theorem C6_explicit_threshold_roundtrip (adj : ℕ → ℕ → Bool) (alpha T : ℚ)
    (cluster_threshold : ℕ) (two_sided : Bool) :
    threshold_stats_img adj none none alpha T none cluster_threshold two_sided =
      .ok (none, .fin T) :=
  rfl

/-- C7: cluster-extent filtering on the `9 × 10 × 11` fixture with the
8-voxel block at `5.0`: `threshold_stats_img` with `alpha = 0.001`,
height control `fpr` and `cluster_threshold = 0` yields exactly 8
surviving voxels, and with `cluster_threshold = 10` the 8-voxel cluster
(of size `8 < 10`) is zeroed, yielding 0. -/
theorem C7_cluster_extent_fixture :
    (resultMap (threshold_stats_img adj990 (some fixture990) (some mask990)
        (1/1000) (1 - sf3q) (some .fpr) 0 true)).map countSupra = some 8 ∧
    (resultMap (threshold_stats_img adj990 (some fixture990) (some mask990)
        (1/1000) (1 - sf3q) (some .fpr) 10 true)).map countSupra = some 0 := by
  exact ⟨rfl, rfl⟩

/-- C3 (evaluation of the spec-modelled algorithm at the claimed inputs):
on the same fixture, `cluster_level_inference` as described by the spec
(per-cluster Hommel value, guarantee `1 - h / |cluster|`, maximum across
the candidate thresholds) marks 9 voxels — the 8-voxel block plus the
singleton cluster at flat index 0 — with a positive guarantee for the
candidate list `[3, 6]` at `alpha = 0.05`, not the 8 the claim (and the
repository's test of the real implementation) states; with threshold `6`
alone it yields 0, as claimed. -/
theorem C3_cluster_inference_spec_model_eval :
    (clusterMap (cluster_level_inference adj990 fixture990 none
        [1 - sf3q, 1 - sf6q] (1/20))).map countPos = some 9 ∧
    (clusterMap (cluster_level_inference adj990 fixture990 none
        [1 - sf6q] (1/20))).map countPos = some 0 := by
  exact ⟨rfl, rfl⟩

/-- C8: the percentile-screening adjustment returns `100` unchanged for
every mask, and for every percentile in `[0, 100)` returns
`min 100 (percentile * (MNI152_BRAIN_VOLUME / volume))`. -/
theorem C8_adjust_screening_percentile (p : ℚ) (m : NiftiImage)
    (_h0 : 0 ≤ p) (h1 : p < 100) :
    (_adjust_screening_percentile 100 m).1 = 100 ∧
    (_adjust_screening_percentile p m).1 =
      min 100 (p * (MNI152_BRAIN_VOLUME / _get_mask_volume m)) := by
  constructor
  · rfl
  · show (if p < 100 then
        min (p * (MNI152_BRAIN_VOLUME / _get_mask_volume m)) 100 else p) = _
    rw [if_pos h1, min_comm]

/-- Witness for C8 at `p = 50` and a concrete mask. -/
theorem C8_adjust_screening_percentile_witness :
    (0 : ℚ) ≤ 50 ∧ (50 : ℚ) < 100 ∧
    ((_adjust_screening_percentile 100 maskSmall).1 = 100 ∧
     (_adjust_screening_percentile 50 maskSmall).1 =
       min 100 (50 * (MNI152_BRAIN_VOLUME / _get_mask_volume maskSmall))) :=
  ⟨by decide, by decide,
   C8_adjust_screening_percentile 50 maskSmall (by decide) (by decide)⟩

/-- C9: the percentile-screening adjustment emits its advisory warning if
and only if the mask volume exceeds `1.1` times, or is below `0.005`
times, the standard brain volume, and in either case still completes and
returns the adjusted percentile. -/
theorem C9_screening_warning_iff (p : ℚ) (m : NiftiImage) :
    ((_adjust_screening_percentile p m).2 ≠ none ↔
      _get_mask_volume m > 11/10 * MNI152_BRAIN_VOLUME ∨
      _get_mask_volume m < 5/1000 * MNI152_BRAIN_VOLUME) ∧
    (_adjust_screening_percentile p m).1 =
      (if p < 100 then
        min (p * (MNI152_BRAIN_VOLUME / _get_mask_volume m)) 100 else p) := by
  refine ⟨?_, rfl⟩
  show (if _get_mask_volume m > 11/10 * MNI152_BRAIN_VOLUME then
      some ScreenWarning.mask_bigger_than_standard_brain
    else if _get_mask_volume m < 5/1000 * MNI152_BRAIN_VOLUME then
      some ScreenWarning.mask_smaller_than_half_percent_of_brain
    else none) ≠ none ↔ _
  split_ifs with hbig hsmall
  · simp [hbig]
  · simp [hsmall]
  · simp [hbig, hsmall]

/-- C10: for every screening percentile strictly between 0 and 100, the
selector built by `check_feature_screening` is constructed with the
volume-adjusted percentile truncated toward zero to an integer, so any
fractional part of the adjusted percentile is discarded. -/
theorem C10_selector_truncates_percentile (sp : ℚ) (m : NiftiImage)
    (ic : Bool) (h0 : 0 < sp) (h1 : sp < 100) :
    check_feature_screening (some sp) m ic =
      .ok (some { score_func := if ic then FTest.f_classif else FTest.f_regression
                  percentile := int_trunc (_adjust_screening_percentile sp m).1 }) := by
  show (if sp = 100 then (Except.ok none : Except Unit (Option SelectPercentile))
      else if ¬(0 ≤ sp ∧ sp ≤ 100) then .error ()
      else .ok (some { score_func := if ic then FTest.f_classif else FTest.f_regression
                       percentile := int_trunc (_adjust_screening_percentile sp m).1 })) = _
  rw [if_neg (ne_of_lt h1), if_neg (not_not_intro ⟨h0.le, h1.le⟩)]

/-- Witness for C10 at `sp = 1/2`, a concrete mask and the classification
score function; the adjusted percentile is capped at `100`, truncating to
the integer `100`. -/
theorem C10_selector_truncates_percentile_witness :
    (0 : ℚ) < 1/2 ∧ (1/2 : ℚ) < 100 ∧
    check_feature_screening (some (1/2)) maskSmall true =
      .ok (some { score_func := FTest.f_classif
                  percentile := int_trunc (_adjust_screening_percentile (1/2) maskSmall).1 }) :=
  ⟨by decide, by decide,
   C10_selector_truncates_percentile (1/2) maskSmall true (by decide) (by decide)⟩

end Nilearn
